import Mathlib

/-!
Shallow embedding of the vector-database service of this repository
(`src/vdb_engine/vdb_service.py`, `src/vdb_engine/engine/retrieval.py`,
`src/vdb_engine/engine/embeddings.py`, `src/utils/mongodb_manager.py`),
together with theorems settling the specification claims about it.

Python floats are modelled as rationals (`ℚ`); the external ML models
(embedding, summarization, reranker) are black-box deterministic functions
packaged in a `Collab` structure; MongoDB documents are association lists
from field names to values, so that Python's `dict.get` is an honest lookup;
the two FAISS indexes are lists of vectors whose list position is the FAISS
position.
-/

namespace Vdb

/-- A MongoDB value as used by this service: string fields, integer fields
(FAISS positions are Python ints), and the embedding, a list of floats. -/
inductive MVal where
  | str : String → MVal
  | intv : Int → MVal
  | ratList : List ℚ → MVal
deriving DecidableEq, Repr

/-- A MongoDB document: an association list from field names to values.
`VDBService.ingest_data` builds these with fields `_id`, `document_name`,
`content`, `summary`, `embedding`. -/
def MDoc : Type := List (String × MVal)

instance : DecidableEq MDoc := inferInstanceAs (DecidableEq (List (String × MVal)))

/-- Python's `dict.get(k)`: the value stored under `k`, or `None`. -/
def mget (d : MDoc) (k : String) : Option MVal := List.lookup k d

/-- Python's `doc.get('content', '')` as used by `rerank_documents`: the
stored string, with the empty string as default.  (A non-string value under
the key cannot arise from `ingest_data`, which always stores a string.) -/
def getStrD (d : MDoc) (k : String) : String :=
  match mget d k with
  | some (MVal.str s) => s
  | _ => ""

/-- The errors this core can surface.  `dimensionMismatch` models the
assertion `d == self.d` inside the FAISS `add`/`search` wrappers;
`duplicateKey` models pymongo's `DuplicateKeyError` on `insert_one` with an
existing `_id`; `unsupportedOperation` is the error the spec says `delete`
should raise (the source never raises it — see `delete_embeddings`). -/
inductive VdbError where
  | dimensionMismatch : VdbError
  | duplicateKey : VdbError
  | unsupportedOperation : VdbError
deriving DecidableEq, Repr

instance {ε α : Type} [DecidableEq ε] [DecidableEq α] :
    DecidableEq (Except ε α) := fun a b =>
  match a, b with
  | Except.ok x, Except.ok y =>
      if h : x = y then Decidable.isTrue (congrArg Except.ok h)
      else Decidable.isFalse (fun hh => h (Except.ok.inj hh))
  | Except.ok _, Except.error _ => Decidable.isFalse (fun hh => Except.noConfusion hh)
  | Except.error _, Except.ok _ => Decidable.isFalse (fun hh => Except.noConfusion hh)
  | Except.error x, Except.error y =>
      if h : x = y then Decidable.isTrue (congrArg Except.error h)
      else Decidable.isFalse (fun hh => h (Except.error.inj hh))

/-- The external model collaborators loaded at service start, as black-box
deterministic functions:
* `summarize`: `EmbeddingEngine.summarize_text` — the summarization
  pipeline call (the source truncates the input to 1024 chars and passes
  `max_length = max(100, len(text.split())/2)`, `min_length = 100`; all of
  that is a function of the text alone, folded into this black box);
* `embed`: `EmbeddingEngine.generate_embedding` — `encode(text)[0]`;
* `predict`: `CrossEncoder.predict` on (query, candidate) pairs, returning
  one relevance score per pair. -/
structure Collab where
  summarize : String → String
  embed : String → List ℚ
  predict : List (String × String) → List ℚ

/-- The two in-memory FAISS indexes owned by one `VectorDBManager`
instance (`self.l2_index` and `self.hnsw_index`), each modelled as the list
of its stored vectors in insertion order; the FAISS position of a vector is
its list index. -/
structure IndexPair where
  l2 : List (List ℚ)
  hnsw : List (List ℚ)
deriving DecidableEq, Repr

/-- The two persisted index files on disk (`faiss_l2.index` and
`faiss_hnsw.index`), shared by every `VectorDBManager` instance. -/
structure DiskStore where
  l2File : List (List ℚ)
  hnswFile : List (List ℚ)
deriving DecidableEq, Repr

/-- Modelled behavior of the external FAISS library's `Index.add`: the
Python wrapper asserts `d == self.d` on the batch's row length BEFORE any
mutation, so a dimension mismatch raises and leaves the index unchanged;
otherwise the rows are appended in order. -/
def faissAdd (dim : ℕ) (index : List (List ℚ)) (batch : List (List ℚ)) :
    Except VdbError (List (List ℚ)) :=
  if batch.all (fun v => v.length == dim) then Except.ok (index ++ batch)
  else Except.error VdbError.dimensionMismatch

/-- Squared L2 distance between two vectors (FAISS's metric for
`IndexFlatL2`). -/
def sqDist (u v : List ℚ) : ℚ :=
  (List.zipWith (fun a b => (a - b) * (a - b)) u v).foldl (· + ·) 0

/-- Stand-in for the `+infinity` sentinel distance FAISS reports for
missing neighbors when `k` exceeds the index size (`ℚ` has no infinity;
the value is never inspected by the service). -/
def sentinelDistance : ℚ := (2 ^ 128 : ℚ) - 2 ^ 104

/-- Ascending-by-distance ordering on (position, distance) pairs. -/
def ascDist (a b : Int × ℚ) : Prop := a.2 ≤ b.2

instance : DecidableRel ascDist := fun a b => inferInstanceAs (Decidable (a.2 ≤ b.2))

/-- Modelled behavior of the external FAISS library's `Index.search` on one
query vector: the `k` nearest stored vectors by the index metric, ordered
by ascending distance, padded with position `-1` and a sentinel distance
when `k` exceeds the index size. -/
def faissSearch (index : List (List ℚ)) (q : List ℚ) (k : ℕ) :
    List Int × List ℚ :=
  let scored := index.enum.map (fun p => ((p.1 : Int), sqDist q p.2))
  let ranked := (List.insertionSort ascDist scored).take k
  (ranked.map Prod.fst ++ List.replicate (k - ranked.length) (-1),
   ranked.map Prod.snd ++ List.replicate (k - ranked.length) sentinelDistance)

/-- `VectorDBIngester.add_embeddings`: add the batch to the L2 index, then
to the HNSW index, then `save_l2_index()` and `save_hnsw_index()` (the
write-through persistence).  Returns the (memory, disk) state reflecting
exactly the mutations performed before a failure: the first FAISS `add`
asserts before mutating, so a dimension mismatch leaves everything
untouched; the middle branch (L2 added, HNSW failed) is unreachable because
both indexes share the configured dimension. -/
def add_embeddings (dim : ℕ) (mem : IndexPair) (disk : DiskStore)
    (batch : List (List ℚ)) : (IndexPair × DiskStore) × Option VdbError :=
  match faissAdd dim mem.l2 batch with
  | Except.error e => ((mem, disk), some e)
  | Except.ok l2' =>
    match faissAdd dim mem.hnsw batch with
    | Except.error e => (({ mem with l2 := l2' }, disk), some e)
    | Except.ok hnsw' =>
        ((⟨l2', hnsw'⟩, ⟨l2', hnsw'⟩), none)

/-- `VectorDBRetriever.search_embedding`: pick the L2 index when `use_l2`
(the source's default) else the HNSW index, and search it; the FAISS
`search` wrapper asserts the query's dimension. -/
def search_embedding (dim : ℕ) (mgr : IndexPair) (q : List ℚ) (top_n : ℕ)
    (use_l2 : Bool := true) : Except VdbError (List Int × List ℚ) :=
  if q.length = dim then
    Except.ok (faissSearch (if use_l2 then mgr.l2 else mgr.hnsw) q top_n)
  else Except.error VdbError.dimensionMismatch

/-- `VectorDBDeletor.delete_embeddings`: the source logs a warning and
falls through (`pass`) — no index mutation and no exception, for every
input. -/
def delete_embeddings (mgr : IndexPair) (_indices : List Int) :
    IndexPair × Option VdbError :=
  (mgr, none)

/-- `MongoDBManager.insert_document` (`insert_one`): pymongo raises
`DuplicateKeyError` when a document with the same `_id` already exists;
otherwise the document is appended to the collection. -/
def insert_document (docs : List MDoc) (d : MDoc) : Except VdbError (List MDoc) :=
  if docs.any (fun e => decide (mget e "_id" = mget d "_id")) then
    Except.error VdbError.duplicateKey
  else Except.ok (docs ++ [d])

/-- `find_documents(col, \x7b'_id': \x7b'$in': keys\x7d\x7d)`: the documents whose
`_id` field equals one of the keys, in collection order. -/
def findByIdIn (docs : List MDoc) (keys : List MVal) : List MDoc :=
  docs.filter (fun d =>
    match mget d "_id" with
    | some v => decide (v ∈ keys)
    | none => false)

/-- `find_documents(col, \x7b'_id': name\x7d)`: the documents whose `_id` equals
the given value. -/
def findById (docs : List MDoc) (key : MVal) : List MDoc :=
  docs.filter (fun d => decide (mget d "_id" = some key))

/-- `delete_documents(col, \x7b'_id': name\x7d)` (`delete_many`): remove every
document whose `_id` equals the given value. -/
def deleteById (docs : List MDoc) (key : MVal) : List MDoc :=
  docs.filter (fun d => !decide (mget d "_id" = some key))

/-- `EmbeddingEngine.summarize_text`: the black-box summarization pipeline
applied to the document text (see `Collab.summarize`). -/
def summarize_text (C : Collab) (text : String) : String := C.summarize text

/-- `EmbeddingEngine.generate_embedding`: the black-box embedding model
applied to a text. -/
def generate_embedding (C : Collab) (text : String) : List ℚ := C.embed text

/-- `EmbeddingEngine.process_document`: summarize the document text, then
embed the SUMMARY (not the raw text). -/
def process_document (C : Collab) (document_text : String) : String × List ℚ :=
  (summarize_text C document_text,
   generate_embedding C (summarize_text C document_text))

/-- The full service state: the ingester's, retriever's and deletor's
private in-memory index copies (each `VectorDB*` instance loads its own
copies in `__init__`), the shared index files on disk, and the MongoDB
collection. -/
structure ServiceState where
  ing : IndexPair
  ret : IndexPair
  del : IndexPair
  disk : DiskStore
  docs : List MDoc
deriving DecidableEq

/-- Service started over empty stores: no index files on disk, so every
manager creates empty indexes, and the collection is empty. -/
def initState : ServiceState :=
  { ing := ⟨[], []⟩, ret := ⟨[], []⟩, del := ⟨[], []⟩
    disk := ⟨[], []⟩, docs := [] }

/-- The MongoDB document built by `VDBService.ingest_data`: `_id` is the
document name; `vector_index` is NOT among the stored fields. -/
def ingestRecord (document_name document_text summary : String)
    (embedding : List ℚ) : MDoc :=
  [("_id", MVal.str document_name),
   ("document_name", MVal.str document_name),
   ("content", MVal.str document_text),
   ("summary", MVal.str summary),
   ("embedding", MVal.ratList embedding)]

/-- `VDBService.ingest_data`: process the document (summary, then
embedding of the summary), insert the record into MongoDB, then add the
embedding to the vector store via `add_embeddings`.  The returned state
reflects exactly the mutations performed before a failure: a Mongo insert
that succeeded persists even when the index append then fails. -/
def ingest_data (C : Collab) (dim : ℕ) (st : ServiceState)
    (document_name document_text : String) : ServiceState × Option VdbError :=
  match insert_document st.docs
      (ingestRecord document_name document_text
        (process_document C document_text).1 (process_document C document_text).2) with
  | Except.error e => (st, some e)
  | Except.ok docs' =>
    match add_embeddings dim st.ing st.disk [(process_document C document_text).2] with
    | ((ing', disk'), some e) =>
        ({ st with docs := docs', ing := ing', disk := disk' }, some e)
    | ((ing', disk'), none) =>
        ({ st with docs := docs', ing := ing', disk := disk' }, none)

/-- A sequence of `ingest_data` calls; `some st'` exactly when every call
in the sequence succeeded. -/
def ingestAll (C : Collab) (dim : ℕ) :
    ServiceState → List (String × String) → Option ServiceState
  | st, [] => some st
  | st, (n, c) :: rest =>
      match ingest_data C dim st n c with
      | (st', none) => ingestAll C dim st' rest
      | (_, some _) => none

/-- Descending-by-relevance-score ordering on (score, document) pairs. -/
def descScore (a b : ℚ × MDoc) : Prop := b.1 ≤ a.1

instance : DecidableRel descScore := fun a b => inferInstanceAs (Decidable (b.1 ≤ a.1))

instance : IsTotal (ℚ × MDoc) descScore := ⟨fun a b => le_total b.1 a.1⟩

instance : IsTrans (ℚ × MDoc) descScore := ⟨fun _ _ _ h1 h2 => le_trans h2 h1⟩

/-- Python's `sorted(pairs, key=lambda x: x[0], reverse=True)`: the stable
descending sort on the score component.  `List.insertionSort` with this
(non-strict) relation is exactly that: it is descending, and an element is
inserted before the already-placed later elements of equal score, so ties
keep their original order. -/
def pySortDescByScore (l : List (ℚ × MDoc)) : List (ℚ × MDoc) :=
  List.insertionSort descScore l

/-- The (query, content) pairs handed to the reranker. -/
def mkPairs (query : String) (documents : List MDoc) : List (String × String) :=
  documents.map (fun d => (query, getStrD d "content"))

/-- The scored prefix computed inside `VDBService.rerank_documents`:
`sorted(zip(scores, documents), key=lambda x: x[0], reverse=True)[:top_k]`. -/
def rerank_scored (C : Collab) (query : String) (documents : List MDoc)
    (top_k : ℕ) : List (ℚ × MDoc) :=
  (pySortDescByScore ((C.predict (mkPairs query documents)).zip documents)).take top_k

/-- `VDBService.rerank_documents`: score the (query, content) pairs with
the reranker, stably sort descending by score, keep the first `top_k`,
and drop the scores. -/
def rerank_documents (C : Collab) (query : String) (documents : List MDoc)
    (top_k : ℕ) : List MDoc :=
  (rerank_scored C query documents top_k).map Prod.snd

/-- `VDBService.get_data`: embed the query, search the retriever's index
(with the source's default backend flag, i.e. the L2 index) for the top
`top_n` positions, fetch the MongoDB documents whose `_id` is in that
position list, return `[]` when nothing matched, else rerank and keep
`top_k`. -/
def get_data (C : Collab) (dim : ℕ) (st : ServiceState) (query : String)
    (top_n top_k : ℕ) : Except VdbError (List MDoc) :=
  match search_embedding dim st.ret (C.embed query) top_n with
  | Except.error e => Except.error e
  | Except.ok res =>
      if (findByIdIn st.docs (res.1.map MVal.intv)).isEmpty then Except.ok []
      else Except.ok
        (rerank_documents C query (findByIdIn st.docs (res.1.map MVal.intv)) top_k)

/-- `VDBService.get_vector_index_for_document`: look the document up by
`_id` and return its `vector_index` field.  `ingest_data` never writes that
field, so the inner lookup misses and the function returns `none` for every
ingested document (a non-integer value under the key is unreachable). -/
def get_vector_index_for_document (docs : List MDoc) (document_name : String) :
    Option Int :=
  match findById docs (MVal.str document_name) with
  | [] => none
  | d :: _ =>
      match mget d "vector_index" with
      | some (MVal.intv z) => some z
      | _ => none

/-- `VDBService.delete_data`: delete the document from MongoDB, then look
up its vector index (always `none`, since ingestion never records one) and,
were one found, call the deletor's (no-op) `delete_embeddings`. -/
def delete_data (st : ServiceState) (document_name : String) :
    ServiceState × Option VdbError :=
  match ({ st with docs := deleteById st.docs (MVal.str document_name) } :
      ServiceState) with
  | st1 =>
    match get_vector_index_for_document st1.docs document_name with
    | none => (st1, none)
    | some vi =>
        match delete_embeddings st1.del [vi] with
        | (del', e) => ({ st1 with del := del' }, e)

/-- Concrete collaborator stub used by the concrete evaluations: identity
summarizer, constant 2-dimensional embedding, constant reranker scores. -/
def collabA : Collab :=
  { summarize := fun s => s
    embed := fun _ => [0, 0]
    predict := fun ps => ps.map (fun _ => 0) }

lemma faissAdd_of_all {dim : ℕ} {batch : List (List ℚ)} (index : List (List ℚ))
    (h : batch.all (fun v => v.length == dim) = true) :
    faissAdd dim index batch = Except.ok (index ++ batch) := by
  simp [faissAdd, h]

lemma faissAdd_of_not_all {dim : ℕ} {batch : List (List ℚ)} (index : List (List ℚ))
    (h : batch.all (fun v => v.length == dim) = false) :
    faissAdd dim index batch = Except.error VdbError.dimensionMismatch := by
  simp [faissAdd, h]

lemma add_embeddings_of_all {dim : ℕ} {batch : List (List ℚ)}
    (mem : IndexPair) (disk : DiskStore)
    (h : batch.all (fun v => v.length == dim) = true) :
    add_embeddings dim mem disk batch
      = ((⟨mem.l2 ++ batch, mem.hnsw ++ batch⟩, ⟨mem.l2 ++ batch, mem.hnsw ++ batch⟩),
         none) := by
  unfold add_embeddings
  rw [faissAdd_of_all mem.l2 h, faissAdd_of_all mem.hnsw h]

lemma add_embeddings_of_not_all {dim : ℕ} {batch : List (List ℚ)}
    (mem : IndexPair) (disk : DiskStore)
    (h : batch.all (fun v => v.length == dim) = false) :
    add_embeddings dim mem disk batch = ((mem, disk), some VdbError.dimensionMismatch) := by
  unfold add_embeddings
  rw [faissAdd_of_not_all mem.l2 h]

lemma add_embeddings_snd_none_iff {dim : ℕ} {batch : List (List ℚ)}
    {mem : IndexPair} {disk : DiskStore} :
    (add_embeddings dim mem disk batch).2 = none
      ↔ batch.all (fun v => v.length == dim) = true := by
  cases hb : batch.all (fun v => v.length == dim) with
  | true => rw [add_embeddings_of_all mem disk hb]; simp
  | false => rw [add_embeddings_of_not_all mem disk hb]; simp

lemma mget_ingestRecord_id (n c s : String) (e : List ℚ) :
    mget (ingestRecord n c s e) "_id" = some (MVal.str n) := rfl

lemma process_document_eq (C : Collab) (t : String) :
    process_document C t = (C.summarize t, C.embed (C.summarize t)) := rfl

lemma insert_document_of_dup {docs : List MDoc} {d : MDoc}
    (h : docs.any (fun e => decide (mget e "_id" = mget d "_id")) = true) :
    insert_document docs d = Except.error VdbError.duplicateKey := by
  simp [insert_document, h]

lemma insert_document_of_new {docs : List MDoc} {d : MDoc}
    (h : docs.any (fun e => decide (mget e "_id" = mget d "_id")) = false) :
    insert_document docs d = Except.ok (docs ++ [d]) := by
  simp only [insert_document, h, Bool.false_eq_true, if_false]

lemma ingest_data_eq_of_dup {C : Collab} {dim : ℕ} {st : ServiceState}
    {name content : String}
    (hdup : st.docs.any (fun e => decide (mget e "_id" = some (MVal.str name))) = true) :
    ingest_data C dim st name content = (st, some VdbError.duplicateKey) := by
  simp only [ingest_data, process_document_eq]
  rw [insert_document_of_dup (by simpa [mget_ingestRecord_id] using hdup)]

lemma ingest_data_eq_of_new_of_dim {C : Collab} {dim : ℕ} {st : ServiceState}
    {name content : String}
    (hdup : st.docs.any (fun e => decide (mget e "_id" = some (MVal.str name))) = false)
    (hlen : (C.embed (C.summarize content)).length = dim) :
    ingest_data C dim st name content =
      ({ st with
          docs := st.docs
            ++ [ingestRecord name content (C.summarize content) (C.embed (C.summarize content))]
          ing := ⟨st.ing.l2 ++ [C.embed (C.summarize content)],
                  st.ing.hnsw ++ [C.embed (C.summarize content)]⟩
          disk := ⟨st.ing.l2 ++ [C.embed (C.summarize content)],
                   st.ing.hnsw ++ [C.embed (C.summarize content)]⟩ }, none) := by
  simp only [ingest_data, process_document_eq]
  rw [insert_document_of_new (by simpa [mget_ingestRecord_id] using hdup)]
  rw [add_embeddings_of_all st.ing st.disk (by simp [hlen])]

lemma ingest_data_eq_of_new_of_dim_ne {C : Collab} {dim : ℕ} {st : ServiceState}
    {name content : String}
    (hdup : st.docs.any (fun e => decide (mget e "_id" = some (MVal.str name))) = false)
    (hlen : (C.embed (C.summarize content)).length ≠ dim) :
    ingest_data C dim st name content =
      ({ st with
          docs := st.docs
            ++ [ingestRecord name content (C.summarize content) (C.embed (C.summarize content))] },
       some VdbError.dimensionMismatch) := by
  simp only [ingest_data, process_document_eq]
  rw [insert_document_of_new (by simpa [mget_ingestRecord_id] using hdup)]
  rw [add_embeddings_of_not_all st.ing st.disk (by simp [hlen])]

lemma ingest_data_success_cases {C : Collab} {dim : ℕ} {st : ServiceState}
    {name content : String}
    (h : (ingest_data C dim st name content).2 = none) :
    st.docs.any (fun e => decide (mget e "_id" = some (MVal.str name))) = false
    ∧ (C.embed (C.summarize content)).length = dim := by
  by_cases hdup : st.docs.any (fun e => decide (mget e "_id" = some (MVal.str name))) = true
  · rw [ingest_data_eq_of_dup hdup] at h
    simp at h
  · have hdup' : st.docs.any (fun e => decide (mget e "_id" = some (MVal.str name))) = false :=
      Bool.eq_false_iff.mpr hdup
    by_cases hlen : (C.embed (C.summarize content)).length = dim
    · exact ⟨hdup', hlen⟩
    · rw [ingest_data_eq_of_new_of_dim_ne hdup' hlen] at h
      simp at h

lemma ingest_data_success_lengths {C : Collab} {dim : ℕ} {st : ServiceState}
    {name content : String}
    (h : (ingest_data C dim st name content).2 = none) :
    (ingest_data C dim st name content).1.ing.l2.length = st.ing.l2.length + 1
    ∧ (ingest_data C dim st name content).1.ing.hnsw.length = st.ing.hnsw.length + 1
    ∧ (ingest_data C dim st name content).1.docs.length = st.docs.length + 1 := by
  obtain ⟨hdup, hlen⟩ := ingest_data_success_cases h
  rw [ingest_data_eq_of_new_of_dim hdup hlen]
  simp

lemma ingestAll_lengths (C : Collab) (dim : ℕ) (batch : List (String × String)) :
    ∀ st st' : ServiceState, ingestAll C dim st batch = some st' →
      st'.ing.l2.length = st.ing.l2.length + batch.length
      ∧ st'.ing.hnsw.length = st.ing.hnsw.length + batch.length
      ∧ st'.docs.length = st.docs.length + batch.length := by
  induction batch with
  | nil =>
      intro st st' h
      simp only [ingestAll, Option.some.injEq] at h
      subst h
      simp
  | cons p rest ih =>
      intro st st' h
      obtain ⟨n, c⟩ := p
      simp only [ingestAll] at h
      cases hic : ingest_data C dim st n c with
      | mk st1 e =>
        rw [hic] at h
        cases e with
        | none =>
            have hs := ingest_data_success_lengths
              (show (ingest_data C dim st n c).2 = none by rw [hic])
            simp only [hic] at hs
            have hrest := ih st1 st' h
            simp only [List.length_cons]
            obtain ⟨h1, h2, h3⟩ := hs
            obtain ⟨g1, g2, g3⟩ := hrest
            refine ⟨?_, ?_, ?_⟩ <;> omega
        | some e' =>
            simp at h

/-- C1: after any sequence of successful `ingest_data` calls starting from
empty stores, the exact (L2) index and the approximate (HNSW) index have
equal size, and that size equals the number of ingested documents. -/
theorem vdb_c1 (C : Collab) (dim : ℕ) (batch : List (String × String))
    (st' : ServiceState) (h : ingestAll C dim initState batch = some st') :
    st'.ing.l2.length = batch.length ∧ st'.ing.hnsw.length = batch.length
    ∧ st'.docs.length = batch.length := by
  have hl := ingestAll_lengths C dim batch initState st' h
  simpa [initState] using hl

/-- Witness for C1: two concrete documents ingested from the empty state. -/
theorem vdb_c1_witness :
    ingestAll collabA 2 initState [("A", "aa"), ("B", "bb")]
        = some ((ingestAll collabA 2 initState [("A", "aa"), ("B", "bb")]).getD initState)
    ∧ (((ingestAll collabA 2 initState [("A", "aa"), ("B", "bb")]).getD initState).ing.l2.length
          = [("A", "aa"), ("B", "bb")].length
        ∧ ((ingestAll collabA 2 initState [("A", "aa"), ("B", "bb")]).getD initState).ing.hnsw.length
          = [("A", "aa"), ("B", "bb")].length
        ∧ ((ingestAll collabA 2 initState [("A", "aa"), ("B", "bb")]).getD initState).docs.length
          = [("A", "aa"), ("B", "bb")].length) :=
  ⟨by decide, vdb_c1 collabA 2 [("A", "aa"), ("B", "bb")] _ (by decide)⟩

/-- C2: the code never records the assigned index position in the stored
document record — after a successful ingest into the empty service the
vector sits at position 0 of both indexes, yet
`get_vector_index_for_document` resolves to `none`, so the position cannot
be mapped back to any document id. -/
theorem vdb_c2 :
    (ingest_data collabA 2 initState "A" "doc-a").2 = none
    ∧ (ingest_data collabA 2 initState "A" "doc-a").1.ing.l2.length = 1
    ∧ (ingest_data collabA 2 initState "A" "doc-a").1.ing.hnsw.length = 1
    ∧ get_vector_index_for_document
        (ingest_data collabA 2 initState "A" "doc-a").1.docs "A" = none := by
  decide

/-- C4: `ingest_data` derives the summary from the content, derives the
embedding from that summary (not from the raw content), persists the
record with fields id/content/summary/embedding to the document store, and
only afterwards appends that same embedding to both index structures; when
the index append fails after the store succeeded, the record is already
persisted while both indexes are untouched. -/
theorem vdb_c4 (C : Collab) (dim : ℕ) (st : ServiceState) (name content : String) :
    process_document C content
        = (C.summarize content, C.embed (C.summarize content))
    ∧ ((ingest_data C dim st name content).2 = none →
        (ingest_data C dim st name content).1.docs
            = st.docs
              ++ [ingestRecord name content (C.summarize content) (C.embed (C.summarize content))]
        ∧ (ingest_data C dim st name content).1.ing.l2
            = st.ing.l2 ++ [C.embed (C.summarize content)]
        ∧ (ingest_data C dim st name content).1.ing.hnsw
            = st.ing.hnsw ++ [C.embed (C.summarize content)])
    ∧ (st.docs.any (fun e => decide (mget e "_id" = some (MVal.str name))) = false →
        (C.embed (C.summarize content)).length ≠ dim →
        (ingest_data C dim st name content).2 = some VdbError.dimensionMismatch
        ∧ (ingest_data C dim st name content).1.docs
            = st.docs
              ++ [ingestRecord name content (C.summarize content) (C.embed (C.summarize content))]
        ∧ (ingest_data C dim st name content).1.ing = st.ing
        ∧ (ingest_data C dim st name content).1.disk = st.disk) := by
  refine ⟨rfl, ?_, ?_⟩
  · intro h
    obtain ⟨hdup, hlen⟩ := ingest_data_success_cases h
    rw [ingest_data_eq_of_new_of_dim hdup hlen]
    exact ⟨rfl, rfl, rfl⟩
  · intro hdup hlen
    rw [ingest_data_eq_of_new_of_dim_ne hdup hlen]
    exact ⟨rfl, rfl, rfl, rfl⟩

/-- Witness for C4: concrete ingest exercising the success case. -/
theorem vdb_c4_witness :
    (process_document collabA "aa"
        = (collabA.summarize "aa", collabA.embed (collabA.summarize "aa")))
    ∧ ((ingest_data collabA 2 initState "A" "aa").2 = none →
        (ingest_data collabA 2 initState "A" "aa").1.docs
            = initState.docs
              ++ [ingestRecord "A" "aa" (collabA.summarize "aa") (collabA.embed (collabA.summarize "aa"))]
        ∧ (ingest_data collabA 2 initState "A" "aa").1.ing.l2
            = initState.ing.l2 ++ [collabA.embed (collabA.summarize "aa")]
        ∧ (ingest_data collabA 2 initState "A" "aa").1.ing.hnsw
            = initState.ing.hnsw ++ [collabA.embed (collabA.summarize "aa")])
    ∧ (initState.docs.any (fun e => decide (mget e "_id" = some (MVal.str "A"))) = false →
        (collabA.embed (collabA.summarize "aa")).length ≠ 2 →
        (ingest_data collabA 2 initState "A" "aa").2 = some VdbError.dimensionMismatch
        ∧ (ingest_data collabA 2 initState "A" "aa").1.docs
            = initState.docs
              ++ [ingestRecord "A" "aa" (collabA.summarize "aa") (collabA.embed (collabA.summarize "aa"))]
        ∧ (ingest_data collabA 2 initState "A" "aa").1.ing = initState.ing
        ∧ (ingest_data collabA 2 initState "A" "aa").1.disk = initState.disk) :=
  vdb_c4 collabA 2 initState "A" "aa"

/-- C6: adding a batch containing a vector whose length differs from the
configured dimension fails with a dimension-mismatch error and leaves both
in-memory indexes and both persisted files unchanged. -/
theorem vdb_c6 (dim : ℕ) (mem : IndexPair) (disk : DiskStore)
    (batch : List (List ℚ)) (v : List ℚ) (hv : v ∈ batch)
    (hlen : v.length ≠ dim) :
    add_embeddings dim mem disk batch = ((mem, disk), some VdbError.dimensionMismatch) := by
  have hall : batch.all (fun w => w.length == dim) ≠ true := by
    intro hact
    have hb : (v.length == dim) = true := List.all_eq_true.mp hact v hv
    exact hlen (by simpa using hb)
  exact add_embeddings_of_not_all mem disk (Bool.eq_false_iff.mpr hall)

/-- Witness for C6: a 3-dimensional vector against a 2-dimensional store. -/
theorem vdb_c6_witness :
    (([0, 0, 0] : List ℚ) ∈ [[(0 : ℚ), 0, 0]] ∧ ([(0 : ℚ), 0, 0].length ≠ 2))
    ∧ add_embeddings 2 ⟨[], []⟩ ⟨[], []⟩ [[0, 0, 0]]
        = ((⟨[], []⟩, ⟨[], []⟩), some VdbError.dimensionMismatch) :=
  ⟨⟨by decide, by decide⟩,
   vdb_c6 2 ⟨[], []⟩ ⟨[], []⟩ [[0, 0, 0]] [0, 0, 0] (by decide) (by decide)⟩

/-- C7 counterexample: calling the deletor on a concrete input raises no
error at all — the result carries `none`, not the unsupported-operation
error the claim requires. -/
theorem vdb_c7_counterexample :
    (delete_embeddings ⟨[], []⟩ [0]).2 = none
    ∧ (delete_embeddings ⟨[], []⟩ [0]).2 ≠ some VdbError.unsupportedOperation := by
  decide

/-- C7 amended: `delete_embeddings` is a silent no-op for every input — it
logs a warning, mutates nothing, and raises no error (in particular it
never raises an unsupported-operation error). -/
theorem vdb_c7_amended (mgr : IndexPair) (indices : List Int) :
    delete_embeddings mgr indices = (mgr, none) := rfl

/-- C8: after every successful add, both in-memory index structures are
persisted to durable storage before the call returns: the on-disk L2 and
HNSW files equal the post-add in-memory indexes, which are the old indexes
with the batch appended. -/
theorem vdb_c8 (dim : ℕ) (mem : IndexPair) (disk : DiskStore)
    (batch : List (List ℚ)) (h : (add_embeddings dim mem disk batch).2 = none) :
    (add_embeddings dim mem disk batch).1.2.l2File
        = (add_embeddings dim mem disk batch).1.1.l2
    ∧ (add_embeddings dim mem disk batch).1.2.hnswFile
        = (add_embeddings dim mem disk batch).1.1.hnsw
    ∧ (add_embeddings dim mem disk batch).1.1.l2 = mem.l2 ++ batch
    ∧ (add_embeddings dim mem disk batch).1.1.hnsw = mem.hnsw ++ batch := by
  have hb := add_embeddings_snd_none_iff.mp h
  rw [add_embeddings_of_all mem disk hb]
  exact ⟨rfl, rfl, rfl, rfl⟩

/-- Witness for C8: a concrete successful add of one 2-dimensional vector. -/
theorem vdb_c8_witness :
    (add_embeddings 2 ⟨[], []⟩ ⟨[], []⟩ [[0, 0]]).2 = none
    ∧ ((add_embeddings 2 ⟨[], []⟩ ⟨[], []⟩ [[0, 0]]).1.2.l2File
          = (add_embeddings 2 ⟨[], []⟩ ⟨[], []⟩ [[0, 0]]).1.1.l2
        ∧ (add_embeddings 2 ⟨[], []⟩ ⟨[], []⟩ [[0, 0]]).1.2.hnswFile
          = (add_embeddings 2 ⟨[], []⟩ ⟨[], []⟩ [[0, 0]]).1.1.hnsw
        ∧ (add_embeddings 2 ⟨[], []⟩ ⟨[], []⟩ [[0, 0]]).1.1.l2 = IndexPair.l2 ⟨[], []⟩ ++ [[0, 0]]
        ∧ (add_embeddings 2 ⟨[], []⟩ ⟨[], []⟩ [[0, 0]]).1.1.hnsw = IndexPair.hnsw ⟨[], []⟩ ++ [[0, 0]]) :=
  ⟨by decide, vdb_c8 2 ⟨[], []⟩ ⟨[], []⟩ [[0, 0]] (by decide)⟩

lemma filter_score_orderedInsert (s : ℚ) (a : ℚ × MDoc) (l : List (ℚ × MDoc)) :
    (List.orderedInsert descScore a l).filter (fun p => decide (p.1 = s))
      = if a.1 = s then a :: l.filter (fun p => decide (p.1 = s))
        else l.filter (fun p => decide (p.1 = s)) := by
  induction l with
  | nil =>
      by_cases has : a.1 = s <;> simp [has]
  | cons b t ih =>
      by_cases hab : descScore a b
      · by_cases has : a.1 = s <;> simp [List.orderedInsert, hab, has, List.filter_cons]
      · have hba : a.1 < b.1 := lt_of_not_le (by simpa [descScore] using hab)
        simp only [List.orderedInsert, if_neg hab, List.filter_cons, ih]
        by_cases has : a.1 = s
        · have hbs : ¬ b.1 = s := by
            intro hbs
            rw [has, hbs] at hba
            exact absurd hba (lt_irrefl s)
          simp [has, hbs]
        · by_cases hbs : b.1 = s <;> simp [has, hbs]

lemma filter_score_insertionSort (s : ℚ) (l : List (ℚ × MDoc)) :
    (pySortDescByScore l).filter (fun p => decide (p.1 = s))
      = l.filter (fun p => decide (p.1 = s)) := by
  induction l with
  | nil => rfl
  | cons a t ih =>
      simp only [pySortDescByScore, List.insertionSort] at ih ⊢
      rw [filter_score_orderedInsert]
      by_cases has : a.1 = s <;> simp [has, ih, List.filter_cons]

lemma mem_documents_of_mem_rerank {C : Collab} {query : String}
    {documents : List MDoc} {top_k : ℕ} {d : MDoc}
    (hd : d ∈ rerank_documents C query documents top_k) : d ∈ documents := by
  simp only [rerank_documents, rerank_scored, List.mem_map] at hd
  obtain ⟨p, hp, hpd⟩ := hd
  have hp1 : p ∈ pySortDescByScore ((C.predict (mkPairs query documents)).zip documents) :=
    List.mem_of_mem_take hp
  simp only [pySortDescByScore] at hp1
  have hp2 : p ∈ (C.predict (mkPairs query documents)).zip documents :=
    (List.mem_insertionSort descScore).mp hp1
  obtain ⟨q, dd⟩ := p
  have hdd := (List.of_mem_zip hp2).2
  subst hpd
  exact hdd

lemma sorted_rerank_scored (C : Collab) (query : String) (documents : List MDoc)
    (top_k : ℕ) : List.Sorted descScore (rerank_scored C query documents top_k) := by
  have hs := List.sorted_insertionSort descScore
      ((C.predict (mkPairs query documents)).zip documents)
  simp only [rerank_scored, pySortDescByScore]
  exact List.Pairwise.sublist (List.take_sublist _ _) hs

lemma length_rerank_le (C : Collab) (query : String) (documents : List MDoc)
    (top_k : ℕ) : (rerank_documents C query documents top_k).length ≤ top_k := by
  simp only [rerank_documents, rerank_scored, List.length_map, List.length_take]
  exact inf_le_left

/-- C3: the rerank stage returns at most `top_k` records, each drawn from
the pre-rerank candidate list, and its scored form is sorted in descending
order of reranker score, with ties keeping the candidates' original order
(Python's `sorted` is stable). -/
theorem vdb_c3 (C : Collab) (query : String) (documents : List MDoc)
    (top_n top_k : ℕ) (_htk : top_k ≤ top_n) (_hdocs : documents.length ≤ top_n)
    (_hlen : (C.predict (mkPairs query documents)).length = documents.length) :
    rerank_documents C query documents top_k
        = (rerank_scored C query documents top_k).map Prod.snd
    ∧ (rerank_documents C query documents top_k).length ≤ top_k
    ∧ (∀ d ∈ rerank_documents C query documents top_k, d ∈ documents)
    ∧ List.Sorted descScore (rerank_scored C query documents top_k)
    ∧ (∀ s : ℚ,
        (pySortDescByScore ((C.predict (mkPairs query documents)).zip documents)).filter
            (fun p => decide (p.1 = s))
          = ((C.predict (mkPairs query documents)).zip documents).filter
            (fun p => decide (p.1 = s))) :=
  ⟨rfl, length_rerank_le C query documents top_k,
   fun _ hd => mem_documents_of_mem_rerank hd,
   sorted_rerank_scored C query documents top_k,
   fun s => filter_score_insertionSort s _⟩

/-- Concrete candidate documents for the rerank witness. -/
def docX : MDoc := [("_id", MVal.str "d1"), ("content", MVal.str "x")]

def docY : MDoc := [("_id", MVal.str "d2"), ("content", MVal.str "y")]

def docZ : MDoc := [("_id", MVal.str "d3"), ("content", MVal.str "z")]

/-- Collaborator stub whose reranker scores content "x" at 1 and anything
else at 5, producing a tie between the second and third candidates. -/
def collabB : Collab :=
  { summarize := fun s => s
    embed := fun _ => [0, 0]
    predict := fun ps => ps.map (fun p => if p.2 = "x" then 1 else 5) }

/-- Witness for C3: three concrete candidates with a score tie. -/
theorem vdb_c3_witness :
    ((2 : ℕ) ≤ 3 ∧ ([docX, docY, docZ] : List MDoc).length ≤ 3
      ∧ (collabB.predict (mkPairs "q" [docX, docY, docZ])).length
          = ([docX, docY, docZ] : List MDoc).length)
    ∧ (rerank_documents collabB "q" [docX, docY, docZ] 2
          = (rerank_scored collabB "q" [docX, docY, docZ] 2).map Prod.snd
      ∧ (rerank_documents collabB "q" [docX, docY, docZ] 2).length ≤ 2
      ∧ (∀ d ∈ rerank_documents collabB "q" [docX, docY, docZ] 2, d ∈ [docX, docY, docZ])
      ∧ List.Sorted descScore (rerank_scored collabB "q" [docX, docY, docZ] 2)
      ∧ (∀ s : ℚ,
          (pySortDescByScore
              ((collabB.predict (mkPairs "q" [docX, docY, docZ])).zip [docX, docY, docZ])).filter
              (fun p => decide (p.1 = s))
            = ((collabB.predict (mkPairs "q" [docX, docY, docZ])).zip [docX, docY, docZ]).filter
              (fun p => decide (p.1 = s)))) :=
  ⟨⟨by decide, by decide, by decide⟩,
   vdb_c3 collabB "q" [docX, docY, docZ] 3 2 (by decide) (by decide) (by decide)⟩

lemma search_embedding_ok {dim : ℕ} {q : List ℚ} (mgr : IndexPair) (top_n : ℕ)
    (hq : q.length = dim) :
    search_embedding dim mgr q top_n = Except.ok (faissSearch mgr.l2 q top_n) := by
  simp [search_embedding, hq]

lemma get_data_eq_of_dim {C : Collab} {dim : ℕ} {st : ServiceState} {query : String}
    {top_n top_k : ℕ} (hq : (C.embed query).length = dim) :
    get_data C dim st query top_n top_k =
      if (findByIdIn st.docs
            ((faissSearch st.ret.l2 (C.embed query) top_n).1.map MVal.intv)).isEmpty
      then Except.ok []
      else Except.ok (rerank_documents C query
        (findByIdIn st.docs
          ((faissSearch st.ret.l2 (C.embed query) top_n).1.map MVal.intv)) top_k) := by
  simp only [get_data, search_embedding_ok st.ret top_n hq]

lemma mem_findByIdIn {docs : List MDoc} {keys : List MVal} {d : MDoc}
    (hd : d ∈ findByIdIn docs keys) :
    d ∈ docs ∧ ∃ v ∈ keys, mget d "_id" = some v := by
  simp only [findByIdIn, List.mem_filter] at hd
  obtain ⟨hmem, hcond⟩ := hd
  refine ⟨hmem, ?_⟩
  cases hv : mget d "_id" with
  | none => rw [hv] at hcond; simp at hcond
  | some v =>
      rw [hv] at hcond
      exact ⟨v, by simpa using hcond, rfl⟩

lemma get_vector_index_deleted (docs : List MDoc) (name : String) :
    get_vector_index_for_document (deleteById docs (MVal.str name)) name = none := by
  simp only [get_vector_index_for_document, findById, deleteById]
  have hnil : List.filter (fun d => decide (mget d "_id" = some (MVal.str name)))
      (List.filter (fun d => !decide (mget d "_id" = some (MVal.str name))) docs) = [] := by
    rw [List.filter_eq_nil_iff]
    intro a ha
    have := (List.mem_filter.mp ha).2
    simpa using this
  rw [hnil]

lemma delete_data_eq (st : ServiceState) (name : String) :
    delete_data st name
      = ({ st with docs := deleteById st.docs (MVal.str name) }, none) := by
  simp only [delete_data]
  rw [get_vector_index_deleted]

lemma mget_ne_of_mem_deleteById {docs : List MDoc} {key : MVal} {d : MDoc}
    (hd : d ∈ deleteById docs key) : mget d "_id" ≠ some key := by
  simp only [deleteById, List.mem_filter] at hd
  simpa using hd.2

/-- C5: after deleting a document, a query returns successfully (the
would-be candidate positions of the deleted vector simply fail to resolve
and are dropped): the result carries no record whose id is the deleted
name, every returned record still exists in the document store, and indeed
no stored record carries the deleted id any more. -/
theorem vdb_c5 (C : Collab) (dim : ℕ) (st : ServiceState) (name query : String)
    (top_n top_k : ℕ) (hq : (C.embed query).length = dim) :
    (get_data C dim (delete_data st name).1 query top_n top_k).toOption.isSome = true
    ∧ (∀ res, get_data C dim (delete_data st name).1 query top_n top_k = Except.ok res →
        ∀ d ∈ res, mget d "_id" ≠ some (MVal.str name) ∧ d ∈ (delete_data st name).1.docs)
    ∧ (∀ d ∈ (delete_data st name).1.docs, mget d "_id" ≠ some (MVal.str name)) := by
  refine ⟨?_, ?_, ?_⟩
  · rw [get_data_eq_of_dim hq]
    split <;> simp [Except.toOption]
  · intro res hres d hd
    rw [get_data_eq_of_dim hq] at hres
    by_cases hempty : (findByIdIn (delete_data st name).1.docs
        ((faissSearch (delete_data st name).1.ret.l2 (C.embed query) top_n).1.map
          MVal.intv)).isEmpty
    · rw [if_pos hempty] at hres
      have : res = [] := by simpa using hres.symm
      subst this
      exact absurd hd (by simp)
    · rw [if_neg hempty] at hres
      have hres' : res = rerank_documents C query
          (findByIdIn (delete_data st name).1.docs
            ((faissSearch (delete_data st name).1.ret.l2 (C.embed query) top_n).1.map
              MVal.intv)) top_k := by
        simpa using hres.symm
      subst hres'
      have hfound := mem_documents_of_mem_rerank hd
      obtain ⟨hdocs, v, hv, hid⟩ := mem_findByIdIn hfound
      refine ⟨?_, hdocs⟩
      obtain ⟨z, hz, hzv⟩ := List.mem_map.mp hv
      rw [hid, ← hzv]
      intro hcontra
      exact MVal.noConfusion (Option.some.inj hcontra)
  · rw [delete_data_eq]
    exact fun d hd => mget_ne_of_mem_deleteById hd

/-- Witness for C5: delete the one ingested document, then query. -/
theorem vdb_c5_witness :
    (collabA.embed "q").length = 2
    ∧ ((get_data collabA 2
          (delete_data (ingest_data collabA 2 initState "A" "aa").1 "A").1 "q" 3 2).toOption.isSome
            = true
        ∧ (∀ res, get_data collabA 2
              (delete_data (ingest_data collabA 2 initState "A" "aa").1 "A").1 "q" 3 2
                = Except.ok res →
            ∀ d ∈ res, mget d "_id" ≠ some (MVal.str "A")
              ∧ d ∈ (delete_data (ingest_data collabA 2 initState "A" "aa").1 "A").1.docs)
        ∧ (∀ d ∈ (delete_data (ingest_data collabA 2 initState "A" "aa").1 "A").1.docs,
            mget d "_id" ≠ some (MVal.str "A"))) :=
  ⟨by decide,
   vdb_c5 collabA 2 (ingest_data collabA 2 initState "A" "aa").1 "A" "q" 3 2 (by decide)⟩

lemma faissSearch_nil (q : List ℚ) (k : ℕ) :
    faissSearch [] q k = (List.replicate k (-1), List.replicate k sentinelDistance) := by
  simp [faissSearch]

/-- C9: every query where no candidates survive resolution — the stored
documents resolved from the searched positions come up empty — returns the
empty sequence and does not error; in particular any query against an
empty index does, since there the search pads every position with `-1`
and no stored document resolves from position `-1`. -/
theorem vdb_c9 (C : Collab) (dim : ℕ) (st : ServiceState) (query : String)
    (top_n top_k : ℕ) (hq : (C.embed query).length = dim) :
    (findByIdIn st.docs
        ((faissSearch st.ret.l2 (C.embed query) top_n).1.map MVal.intv) = [] →
      get_data C dim st query top_n top_k = Except.ok [])
    ∧ (st.ret.l2 = [] →
        (∀ d ∈ st.docs, mget d "_id" ≠ some (MVal.intv (-1))) →
        get_data C dim st query top_n top_k = Except.ok []) := by
  constructor
  · intro hnone
    rw [get_data_eq_of_dim hq, hnone]
    rfl
  · intro hempty hids
    rw [get_data_eq_of_dim hq, hempty, faissSearch_nil]
    have hfind : findByIdIn st.docs ((List.replicate top_n (-1 : Int)).map MVal.intv) = [] := by
      simp only [findByIdIn, List.map_replicate]
      rw [List.filter_eq_nil_iff]
      intro d hd
      cases hv : mget d "_id" with
      | none => simp
      | some v =>
          simp only [decide_eq_true_eq]
          intro hmem
          have hveq : v = MVal.intv (-1) := (List.mem_replicate.mp hmem).2
          exact hids d hd (hveq ▸ hv)
    rw [hfind]
    simp

/-- A state whose retriever index is empty but whose document store is
not, for the C9 witness. -/
def stEmptyIdx : ServiceState :=
  { initState with docs := [ingestRecord "A" "aa" "aa" [0, 0]] }

/-- Witness for C9: query an empty index with a non-empty document store
(both the general no-survivors clause and the empty-index clause apply at
this input). -/
theorem vdb_c9_witness :
    (collabA.embed "q").length = 2
    ∧ ((findByIdIn stEmptyIdx.docs
          ((faissSearch stEmptyIdx.ret.l2 (collabA.embed "q") 5).1.map MVal.intv) = [] →
        get_data collabA 2 stEmptyIdx "q" 5 3 = Except.ok [])
      ∧ (stEmptyIdx.ret.l2 = [] →
          (∀ d ∈ stEmptyIdx.docs, mget d "_id" ≠ some (MVal.intv (-1))) →
          get_data collabA 2 stEmptyIdx "q" 5 3 = Except.ok [])) :=
  ⟨by decide, vdb_c9 collabA 2 stEmptyIdx "q" 5 3 (by decide)⟩

/-- C10: the query path reads only the retriever's L2 index and the
document store — two service states agreeing on those (however much their
HNSW indexes, ingester copies or disk files differ) receive identical
query results, because `search_embedding` is called with its backend flag
left at the default (L2) and never overridden. -/
theorem vdb_c10 (C : Collab) (dim : ℕ) (st₁ st₂ : ServiceState) (query : String)
    (top_n top_k : ℕ) (hidx : st₁.ret.l2 = st₂.ret.l2) (hdocs : st₁.docs = st₂.docs) :
    get_data C dim st₁ query top_n top_k = get_data C dim st₂ query top_n top_k := by
  simp only [get_data, search_embedding, if_true]
  rw [hidx, hdocs]

/-- A state differing from the empty one only in the HNSW copies and the
ingester's indexes, for the C10 witness. -/
def stHnsw : ServiceState :=
  { initState with ing := ⟨[[0, 0]], [[0, 0]]⟩, ret := ⟨[], [[0, 0]]⟩ }

/-- Witness for C10: two states sharing L2 index and documents but with
different HNSW contents give the same query answer. -/
theorem vdb_c10_witness :
    (initState.ret.l2 = stHnsw.ret.l2 ∧ initState.docs = stHnsw.docs)
    ∧ get_data collabA 2 initState "q" 3 2 = get_data collabA 2 stHnsw "q" 3 2 :=
  ⟨⟨by decide, by decide⟩, vdb_c10 collabA 2 initState stHnsw "q" 3 2 (by decide) (by decide)⟩

end Vdb
